import Mathlib

/-!
Shallow embedding of the AuraVest quantitative core, the classes
`OptionsPricingModel`, `VolatilityAnalyzer`, `PortfolioOptimizer`,
`PriceForecaster` (file `quantitative_models.py`) and `PortfolioRiskModel`
(file `risk_models.py`), together with proofs and refutations of the
testable properties stated in the specification.

Numbers are modelled by real numbers; the numpy/scipy numeric kernels
(`log`, `exp`, `sqrt`, `stats.norm.cdf`, `stats.norm.pdf`) are modelled by
their mathematical meaning over `ℝ`.  External estimators that the core
merely invokes (`scipy.optimize.minimize`, the `arch` GARCH fitter, the
numpy random sampler) are modelled as explicit oracle parameters, since
their internals are not part of this repository.
-/

open MeasureTheory

namespace AuraVest

/-- Standard normal cumulative distribution function `Φ`, the meaning of
`scipy.stats.norm.cdf`: `Φ x = (∫ t in (-∞, x], exp (-t²/2)) / √(2π)`. -/
noncomputable def normCdf (x : ℝ) : ℝ :=
  (∫ t in Set.Iic x, Real.exp (-t ^ 2 / 2)) / Real.sqrt (2 * Real.pi)

/-- Standard normal density `φ`, the meaning of `scipy.stats.norm.pdf`. -/
noncomputable def normPdf (x : ℝ) : ℝ :=
  Real.exp (-x ^ 2 / 2) / Real.sqrt (2 * Real.pi)

lemma gaussKernel_eq (t : ℝ) :
    Real.exp (-t ^ 2 / 2) = Real.exp (-(1 / 2 : ℝ) * t ^ 2) := by
  congr 1
  ring

lemma integrable_gaussKernel : Integrable fun t : ℝ => Real.exp (-t ^ 2 / 2) := by
  simp only [gaussKernel_eq]
  exact integrable_exp_neg_mul_sq (by norm_num)

lemma integral_gaussKernel :
    (∫ t : ℝ, Real.exp (-t ^ 2 / 2)) = Real.sqrt (2 * Real.pi) := by
  simp only [gaussKernel_eq]
  rw [integral_gaussian]
  rw [show Real.pi / (1 / 2 : ℝ) = 2 * Real.pi by ring]

lemma sqrt_two_pi_pos : 0 < Real.sqrt (2 * Real.pi) :=
  Real.sqrt_pos.mpr (by positivity)

/-- Complementarity of the normal CDF: `Φ x + Φ (-x) = 1`. -/
lemma normCdf_add_normCdf_neg (x : ℝ) : normCdf x + normCdf (-x) = 1 := by
  have h1 : (∫ t in Set.Iic (-x), Real.exp (-t ^ 2 / 2))
      = ∫ t in Set.Ioi x, Real.exp (-t ^ 2 / 2) := by
    have h := integral_comp_neg_Iic (-x) fun t => Real.exp (-t ^ 2 / 2)
    simp only [neg_neg, neg_sq] at h
    exact h
  have h2 : (∫ t in Set.Iic x, Real.exp (-t ^ 2 / 2))
        + ∫ t in Set.Ioi x, Real.exp (-t ^ 2 / 2)
      = ∫ t : ℝ, Real.exp (-t ^ 2 / 2) :=
    intervalIntegral.integral_Iic_add_Ioi integrable_gaussKernel.integrableOn
      integrable_gaussKernel.integrableOn
  have hne : Real.sqrt (2 * Real.pi) ≠ 0 := ne_of_gt sqrt_two_pi_pos
  unfold normCdf
  rw [h1, div_add_div_same, h2, integral_gaussKernel, div_self hne]

lemma normCdf_nonneg (x : ℝ) : 0 ≤ normCdf x := by
  unfold normCdf
  refine div_nonneg ?_ (Real.sqrt_nonneg _)
  refine setIntegral_nonneg measurableSet_Iic fun t _ => ?_
  positivity

lemma normCdf_mono {x y : ℝ} (h : x ≤ y) : normCdf x ≤ normCdf y := by
  unfold normCdf
  have hAB : (∫ t in Set.Iic x, Real.exp (-t ^ 2 / 2))
      ≤ ∫ t in Set.Iic y, Real.exp (-t ^ 2 / 2) := by
    refine setIntegral_mono_set integrable_gaussKernel.integrableOn ?_ ?_
    · exact Filter.Eventually.of_forall fun t => (Real.exp_pos _).le
    · exact (Set.Iic_subset_Iic.mpr h).eventuallyLE
  exact div_le_div_of_nonneg_right hAB sqrt_two_pi_pos.le

/-- Chernoff-style tail estimate used to evaluate the pricing model at
deep out-of-the-money inputs: for `1 ≤ a`, `Φ (-a) ≤ exp (-a²/2)`. -/
lemma normCdf_neg_le (a : ℝ) (ha : 1 ≤ a) : normCdf (-a) ≤ Real.exp (-a ^ 2 / 2) := by
  have hderiv : ∀ t : ℝ, HasDerivAt (fun u : ℝ => Real.exp (-u ^ 2 / 2))
      (-t * Real.exp (-t ^ 2 / 2)) t := by
    intro t
    have h1 : HasDerivAt (fun u : ℝ => -u ^ 2 / 2) (-t) t := by
      have := (hasDerivAt_pow 2 t).neg.div_const 2
      simpa using this.congr_deriv (by ring)
    simpa [mul_comm] using h1.exp
  have hint : IntegrableOn (fun t : ℝ => -t * Real.exp (-t ^ 2 / 2)) (Set.Iic (-a)) := by
    have hb : (0 : ℝ) < 1 / 2 := by norm_num
    have h := (integrable_mul_exp_neg_mul_sq hb).neg
    have h2 : Integrable fun t : ℝ => -t * Real.exp (-t ^ 2 / 2) := by
      refine h.congr (Filter.Eventually.of_forall fun t => ?_)
      simp only [Pi.neg_apply]
      rw [gaussKernel_eq]
      ring
    exact h2.integrableOn
  have htend : Filter.Tendsto (fun u : ℝ => Real.exp (-u ^ 2 / 2))
      Filter.atBot (nhds 0) := by
    have hsq : Filter.Tendsto (fun u : ℝ => -u ^ 2 / 2) Filter.atBot Filter.atBot := by
      have h1 : Filter.Tendsto (fun u : ℝ => u ^ 2) Filter.atBot Filter.atTop := by
        have hneg : Filter.Tendsto (fun u : ℝ => -u) Filter.atBot Filter.atTop :=
          Filter.tendsto_neg_atBot_atTop
        have hpow : Filter.Tendsto (fun v : ℝ => v ^ 2) Filter.atTop Filter.atTop :=
          Filter.tendsto_pow_atTop (by norm_num)
        have := hpow.comp hneg
        refine this.congr fun u => ?_
        simp [neg_sq]
      have h2 : Filter.Tendsto (fun v : ℝ => -v / 2) Filter.atTop Filter.atBot := by
        exact (Filter.tendsto_neg_atTop_atBot).atBot_div_const (by norm_num)
      have := h2.comp h1
      exact this.congr fun u => rfl
    exact Real.tendsto_exp_atBot.comp hsq
  have hFTC : (∫ t in Set.Iic (-a), -t * Real.exp (-t ^ 2 / 2))
      = Real.exp (-(-a) ^ 2 / 2) - 0 :=
    integral_Iic_of_hasDerivAt_of_tendsto' (fun t _ => hderiv t) hint htend
  have hmono : (∫ t in Set.Iic (-a), Real.exp (-t ^ 2 / 2))
      ≤ ∫ t in Set.Iic (-a), -t * Real.exp (-t ^ 2 / 2) := by
    refine setIntegral_mono_on integrable_gaussKernel.integrableOn hint
      measurableSet_Iic fun t ht => ?_
    have h1 : 1 ≤ -t := by
      have := ht.out
      linarith
    nlinarith [Real.exp_pos (-t ^ 2 / 2)]
  have hbound : (∫ t in Set.Iic (-a), Real.exp (-t ^ 2 / 2))
      ≤ Real.exp (-a ^ 2 / 2) := by
    rw [hFTC] at hmono
    simpa [neg_sq] using hmono
  unfold normCdf
  have hone : 1 ≤ Real.sqrt (2 * Real.pi) := by
    rw [show (1 : ℝ) = Real.sqrt 1 from (Real.sqrt_one).symm]
    refine Real.sqrt_le_sqrt ?_
    nlinarith [Real.pi_gt_three]
  have hA : 0 ≤ ∫ t in Set.Iic (-a), Real.exp (-t ^ 2 / 2) :=
    setIntegral_nonneg measurableSet_Iic fun t _ => (Real.exp_pos _).le
  calc (∫ t in Set.Iic (-a), Real.exp (-t ^ 2 / 2)) / Real.sqrt (2 * Real.pi)
      ≤ (∫ t in Set.Iic (-a), Real.exp (-t ^ 2 / 2)) / 1 :=
        div_le_div_of_nonneg_left hA one_pos hone
    _ = ∫ t in Set.Iic (-a), Real.exp (-t ^ 2 / 2) := by rw [div_one]
    _ ≤ Real.exp (-a ^ 2 / 2) := hbound

/-! ## `OptionsPricingModel` (`quantitative_models.py`, lines 15-65) -/

/-- Python's `str.lower()` on the ASCII strings used as option types. -/
def lower (s : String) : String :=
  ⟨s.data.map Char.toLower⟩

/-- `OptionsPricingModel.black_scholes(S, K, T, r, sigma, option_type)`:
`d1 = (ln(S/K) + (r + 0.5 σ²) T) / (σ √T)`, `d2 = d1 − σ √T`;
the `'call'` branch returns `S Φ(d1) − K e^{−rT} Φ(d2)`, any other
`option_type` takes the `else` (put) branch
`K e^{−rT} Φ(−d2) − S Φ(−d1)`. -/
noncomputable def black_scholes (S K T r sigma : ℝ) (option_type : String) : ℝ :=
  let d1 := (Real.log (S / K) + (r + 0.5 * sigma ^ 2) * T) / (sigma * Real.sqrt T)
  let d2 := d1 - sigma * Real.sqrt T
  if lower option_type = "call" then
    S * normCdf d1 - K * Real.exp (-r * T) * normCdf d2
  else
    K * Real.exp (-r * T) * normCdf (-d2) - S * normCdf (-d1)

/-- C1.  Put-call parity: for every spot > 0, strike > 0, T > 0, rate r and
vol > 0, `black_scholes S K T r σ call − black_scholes S K T r σ put`
equals `S − K e^{−rT}` — exactly, in real arithmetic. -/
theorem black_scholes_put_call_parity (S K T r sigma : ℝ)
    (hS : 0 < S) (hK : 0 < K) (hT : 0 < T) (hsig : 0 < sigma) :
    black_scholes S K T r sigma "call" - black_scholes S K T r sigma "put"
      = S - K * Real.exp (-r * T) := by
  unfold black_scholes
  rw [if_pos (show lower "call" = "call" from rfl),
    if_neg (show ¬ lower "put" = "call" by decide)]
  have h1 := normCdf_add_normCdf_neg
    ((Real.log (S / K) + (r + 0.5 * sigma ^ 2) * T) / (sigma * Real.sqrt T))
  have h2 := normCdf_add_normCdf_neg
    ((Real.log (S / K) + (r + 0.5 * sigma ^ 2) * T) / (sigma * Real.sqrt T)
      - sigma * Real.sqrt T)
  linear_combination S * h1 - K * Real.exp (-r * T) * h2

/-- C1 witness: parity instantiated at spot 100, strike 100, T = 1,
r = 0.05, vol 0.2. -/
theorem black_scholes_put_call_parity_witness :
    black_scholes 100 100 1 (5 / 100) (2 / 10) "call"
        - black_scholes 100 100 1 (5 / 100) (2 / 10) "put"
      = 100 - 100 * Real.exp (-(5 / 100) * 1) :=
  black_scholes_put_call_parity 100 100 1 (5 / 100) (2 / 10)
    (by norm_num) (by norm_num) (by norm_num) (by norm_num)

/-- One update of the Newton-Raphson loop in
`OptionsPricingModel.implied_volatility`: price the current σ, form
`diff = option_price − price`, add `diff / vega` with
`vega = S √T φ(d1)`, and reset σ to 0.01 when the update makes it
non-positive. -/
noncomputable def newton_step (S K T r option_price : ℝ) (option_type : String)
    (sigma : ℝ) : ℝ :=
  let price := black_scholes S K T r sigma option_type
  let diff := option_price - price
  let d1 := (Real.log (S / K) + (r + 0.5 * sigma ^ 2) * T) / (sigma * Real.sqrt T)
  let vega := S * Real.sqrt T * normPdf d1
  let sigma' := sigma + diff / vega
  if sigma' ≤ 0 then 0.01 else sigma'

/-- The `for i in range(max_iter)` loop of `implied_volatility`, with the
remaining iteration budget as the `ℕ` argument: each round returns the
current σ if `|option_price − price(σ)| < tolerance`, otherwise runs one
`newton_step`; an exhausted budget returns the last σ. -/
noncomputable def iv_loop (S K T r option_price : ℝ) (option_type : String)
    (tolerance : ℝ) : ℕ → ℝ → ℝ
  | 0, sigma => sigma
  | n + 1, sigma =>
    if |option_price - black_scholes S K T r sigma option_type| < tolerance then
      sigma
    else
      iv_loop S K T r option_price option_type tolerance n
        (newton_step S K T r option_price option_type sigma)

/-- `OptionsPricingModel.implied_volatility(S, K, T, r, option_price,
option_type, tolerance=1e-5, max_iter=100)`: Newton-Raphson from the
initial guess σ = 0.5. -/
noncomputable def implied_volatility (S K T r option_price : ℝ)
    (option_type : String) (tolerance : ℝ := 1e-5) (max_iter : ℕ := 100) : ℝ :=
  iv_loop S K T r option_price option_type tolerance max_iter 0.5

lemma iv_loop_spec (S K T r option_price : ℝ) (option_type : String)
    (tolerance : ℝ) :
    ∀ (n : ℕ) (sigma : ℝ),
      |option_price - black_scholes S K T r
          (iv_loop S K T r option_price option_type tolerance n sigma)
          option_type| < tolerance
      ∨ iv_loop S K T r option_price option_type tolerance n sigma
          = (newton_step S K T r option_price option_type)^[n] sigma := by
  intro n
  induction n with
  | zero => intro sigma; right; simp [iv_loop]
  | succ n ih =>
    intro sigma
    by_cases h : |option_price - black_scholes S K T r sigma option_type|
        < tolerance
    · left
      rw [iv_loop, if_pos h]
      exact h
    · rw [iv_loop, if_neg h]
      rcases ih (newton_step S K T r option_price option_type sigma) with hc | he
      · exact Or.inl hc
      · right
        rw [Function.iterate_succ_apply]
        exact he

lemma sqrt_inv_hundred : Real.sqrt (1 / 100) = 1 / 10 := by
  rw [show (1 / 100 : ℝ) = (1 / 10) ^ 2 by norm_num, Real.sqrt_sq (by norm_num)]

lemma four_lt_log_hundred : 4 < Real.log 100 := by
  rw [Real.lt_log_iff_exp_lt (by norm_num)]
  have h1 : Real.exp 4 = Real.exp 1 ^ (4 : ℕ) := by
    rw [← Real.exp_nat_mul]
    norm_num
  have h2 : Real.exp 1 ^ (4 : ℕ) < 2.7182818286 ^ (4 : ℕ) :=
    pow_lt_pow_left Real.exp_one_lt_d9 (Real.exp_pos 1).le (by norm_num)
  rw [h1]
  calc Real.exp 1 ^ (4 : ℕ) < 2.7182818286 ^ (4 : ℕ) := h2
    _ < 100 := by norm_num

lemma exp_neg_fifty_le : Real.exp (-50) ≤ (1 / 2 : ℝ) ^ 50 := by
  have h2 : (2 : ℝ) ≤ Real.exp 1 := by
    have := Real.exp_one_gt_d9
    linarith
  have hpow : (2 : ℝ) ^ (50 : ℕ) ≤ Real.exp 1 ^ (50 : ℕ) :=
    pow_le_pow_left (by norm_num) h2 50
  have hexp50 : Real.exp 50 = Real.exp 1 ^ (50 : ℕ) := by
    rw [← Real.exp_nat_mul]
    norm_num
  rw [Real.exp_neg, show ((1 : ℝ) / 2) ^ 50 = ((2 : ℝ) ^ (50 : ℕ))⁻¹ by
    rw [div_pow]; norm_num]
  rw [hexp50] at *
  exact inv_le_inv_of_le (by positivity) hpow

/-- Both `normCdf` arguments huge and negative make a call price tiny:
if `d1 ≤ −10` and `d2 ≤ −10` at given inputs with `S, K ≥ 0` and
`0 ≤ r T`, then `|black_scholes S K T r σ "call"| ≤ (S + K) exp (−50)`. -/
lemma black_scholes_call_abs_le (S K T r sigma : ℝ) (hS : 0 ≤ S) (hK : 0 ≤ K)
    (hrT : 0 ≤ r * T)
    (hd1 : (Real.log (S / K) + (r + 0.5 * sigma ^ 2) * T)
        / (sigma * Real.sqrt T) ≤ -10)
    (hd2 : (Real.log (S / K) + (r + 0.5 * sigma ^ 2) * T)
        / (sigma * Real.sqrt T) - sigma * Real.sqrt T ≤ -10) :
    |black_scholes S K T r sigma "call"| ≤ (S + K) * Real.exp (-50) := by
  unfold black_scholes
  rw [if_pos (show lower "call" = "call" from rfl)]
  have htail : normCdf (-10) ≤ Real.exp (-50) := by
    have h := normCdf_neg_le 10 (by norm_num)
    have : (-(10 : ℝ) ^ 2 / 2) = -50 := by norm_num
    rwa [this] at h
  have h1 : normCdf ((Real.log (S / K) + (r + 0.5 * sigma ^ 2) * T)
      / (sigma * Real.sqrt T)) ≤ Real.exp (-50) :=
    le_trans (by simpa using normCdf_mono (show _ ≤ (-10 : ℝ) from hd1)) htail
  have h2 : normCdf ((Real.log (S / K) + (r + 0.5 * sigma ^ 2) * T)
      / (sigma * Real.sqrt T) - sigma * Real.sqrt T) ≤ Real.exp (-50) :=
    le_trans (by simpa using normCdf_mono (show _ ≤ (-10 : ℝ) from hd2)) htail
  have hexp1 : Real.exp (-r * T) ≤ 1 := by
    rw [Real.exp_le_one_iff]
    linarith
  have hn1 := normCdf_nonneg ((Real.log (S / K) + (r + 0.5 * sigma ^ 2) * T)
      / (sigma * Real.sqrt T))
  have hn2 := normCdf_nonneg ((Real.log (S / K) + (r + 0.5 * sigma ^ 2) * T)
      / (sigma * Real.sqrt T) - sigma * Real.sqrt T)
  have hexppos := Real.exp_pos (-r * T)
  have hexp50pos := Real.exp_pos (-50 : ℝ)
  rw [abs_le]
  constructor
  · have hb : K * Real.exp (-r * T) * normCdf ((Real.log (S / K)
        + (r + 0.5 * sigma ^ 2) * T) / (sigma * Real.sqrt T)
          - sigma * Real.sqrt T) ≤ K * Real.exp (-50) := by
      calc K * Real.exp (-r * T) * normCdf _ ≤ K * 1 * Real.exp (-50) := by
            apply mul_le_mul _ h2 hn2 (by positivity)
            nlinarith
        _ = K * Real.exp (-50) := by ring
    nlinarith [mul_nonneg hS hn1]
  · have ha : S * normCdf ((Real.log (S / K) + (r + 0.5 * sigma ^ 2) * T)
        / (sigma * Real.sqrt T)) ≤ S * Real.exp (-50) :=
      mul_le_mul_of_nonneg_left h1 hS
    nlinarith [mul_nonneg (mul_nonneg hK hexppos.le) hn2]

lemma c2_d1_bound_small :
    (Real.log ((100 : ℝ) / 10000) + (5 / 100 + 0.5 * (1 / 20 : ℝ) ^ 2) * (1 / 100))
      / ((1 / 20) * Real.sqrt (1 / 100)) ≤ -10 := by
  rw [sqrt_inv_hundred]
  rw [show ((100 : ℝ) / 10000) = ((100 : ℝ))⁻¹ by norm_num, Real.log_inv]
  have h := four_lt_log_hundred
  rw [div_le_iff (by norm_num : (0 : ℝ) < 1 / 20 * (1 / 10))]
  nlinarith

lemma c2_d1_bound_half :
    (Real.log ((100 : ℝ) / 10000) + (5 / 100 + 0.5 * (1 / 2 : ℝ) ^ 2) * (1 / 100))
      / ((1 / 2) * Real.sqrt (1 / 100)) ≤ -10 := by
  rw [sqrt_inv_hundred]
  rw [show ((100 : ℝ) / 10000) = ((100 : ℝ))⁻¹ by norm_num, Real.log_inv]
  have h := four_lt_log_hundred
  rw [div_le_iff (by norm_num : (0 : ℝ) < 1 / 2 * (1 / 10))]
  nlinarith

lemma c2_price_small_small :
    |black_scholes 100 10000 (1 / 100) (5 / 100) (1 / 20) "call"|
      ≤ 10100 * Real.exp (-50) := by
  have h := black_scholes_call_abs_le 100 10000 (1 / 100) (5 / 100) (1 / 20)
    (by norm_num) (by norm_num) (by norm_num) c2_d1_bound_small
    (by
      have h1 := c2_d1_bound_small
      rw [sqrt_inv_hundred] at h1 ⊢
      nlinarith [h1])
  linarith [h]

lemma c2_price_small_half :
    |black_scholes 100 10000 (1 / 100) (5 / 100) (1 / 2) "call"|
      ≤ 10100 * Real.exp (-50) := by
  have h := black_scholes_call_abs_le 100 10000 (1 / 100) (5 / 100) (1 / 2)
    (by norm_num) (by norm_num) (by norm_num) c2_d1_bound_half
    (by
      have h1 := c2_d1_bound_half
      rw [sqrt_inv_hundred] at h1 ⊢
      nlinarith [h1])
  linarith [h]

/-- C2 counterexample.  The implied-volatility round-trip fails as stated:
for the deep out-of-the-money call with spot 100, strike 10000,
T = 0.01 years, r = 0.05 and true σ = 0.05 ∈ [0.05, 1.5], both the
observed price and the price at the initial guess 0.5 are (far) below
the tolerance 1e-5, so the very first convergence test fires and
`implied_volatility` returns the initial guess 0.5, which is not within
1e-4 of σ = 0.05. -/
theorem implied_volatility_roundtrip_counterexample :
    implied_volatility 100 10000 (1 / 100) (5 / 100)
        (black_scholes 100 10000 (1 / 100) (5 / 100) (1 / 20) "call") "call"
      = 0.5
    ∧ ¬ |(0.5 : ℝ) - 1 / 20| ≤ 1e-4 := by
  constructor
  · have hcond : |black_scholes 100 10000 (1 / 100) (5 / 100) (1 / 20) "call"
        - black_scholes 100 10000 (1 / 100) (5 / 100) (0.5) "call"| < 1e-5 := by
      have h1 := c2_price_small_small
      have h2 : |black_scholes 100 10000 (1 / 100) (5 / 100) (0.5) "call"|
          ≤ 10100 * Real.exp (-50) := by
        have := c2_price_small_half
        norm_num at this ⊢
        exact this
      have hexp := exp_neg_fifty_le
      have htri := abs_sub (black_scholes 100 10000 (1 / 100) (5 / 100)
        (1 / 20) "call") (black_scholes 100 10000 (1 / 100) (5 / 100)
        (0.5) "call")
      have hnum : (20200 : ℝ) * (1 / 2) ^ 50 < 1e-5 := by norm_num
      calc |black_scholes 100 10000 (1 / 100) (5 / 100) (1 / 20) "call"
            - black_scholes 100 10000 (1 / 100) (5 / 100) (0.5) "call"|
          ≤ |black_scholes 100 10000 (1 / 100) (5 / 100) (1 / 20) "call"|
            + |black_scholes 100 10000 (1 / 100) (5 / 100) (0.5) "call"| :=
            abs_sub _ _
        _ ≤ 10100 * Real.exp (-50) + 10100 * Real.exp (-50) := by linarith
        _ = 20200 * Real.exp (-50) := by ring
        _ ≤ 20200 * (1 / 2) ^ 50 := by nlinarith
        _ < 1e-5 := hnum
    unfold implied_volatility
    rw [show (100 : ℕ) = 99 + 1 from rfl, iv_loop, if_pos hcond]
  · rw [show (0.5 : ℝ) - 1 / 20 = 0.45 by norm_num,
      abs_of_nonneg (by norm_num : (0 : ℝ) ≤ 0.45)]
    norm_num

/-- C2 amended.  What the Newton-Raphson inversion actually guarantees:
the returned σ either reprices the observed option price to within the
tolerance (the loop's convergence test), or it is the value left after
running the full `max_iter` Newton updates from the initial guess 0.5
(the documented non-strict convergence policy).  The returned value need
not lie within 1e-4 of the volatility that generated the price. -/
theorem implied_volatility_reprices_or_exhausts (S K T r option_price : ℝ)
    (option_type : String) (tolerance : ℝ) (max_iter : ℕ) :
    |option_price - black_scholes S K T r
        (implied_volatility S K T r option_price option_type tolerance max_iter)
        option_type| < tolerance
    ∨ implied_volatility S K T r option_price option_type tolerance max_iter
        = (newton_step S K T r option_price option_type)^[max_iter] 0.5 :=
  iv_loop_spec S K T r option_price option_type tolerance max_iter 0.5

/-- The error taxonomy the specification prescribes for hard failures. -/
inductive QuantError where
  | invalidInput : QuantError
  | insufficientData : QuantError
deriving DecidableEq

/-- The effectful view of `OptionsPricingModel.black_scholes`: the method
body contains no input validation and no `raise` statement (and the module
suppresses numeric warnings), so every call — whatever the arguments —
returns normally with the closed-form value.  Its embedding into an
error-aware result type is therefore constantly `Except.ok`. -/
noncomputable def black_scholes_run (S K T r sigma : ℝ) (option_type : String) :
    Except QuantError ℝ :=
  Except.ok (black_scholes S K T r sigma option_type)

/-- C3 counterexample.  Calling `black_scholes` with spot = −1 (violating
the precondition spot > 0) does not fail with an `InvalidInput` error: the
call returns normally with a numeric value. -/
theorem black_scholes_no_validation_counterexample :
    (black_scholes_run (-1) 100 1 (5 / 100) (2 / 10) "call").isOk = true
    ∧ ¬ (0 : ℝ) < -1 := by
  constructor
  · rfl
  · norm_num

/-- C3 amended.  `black_scholes` performs no input validation: on every
precondition-violating input (spot ≤ 0, strike ≤ 0, T ≤ 0 or vol ≤ 0) it
still returns `Except.ok` of the closed-form value rather than an
`InvalidInput` failure. -/
theorem black_scholes_run_ok_on_bad_input (S K T r sigma : ℝ)
    (option_type : String)
    (hbad : S ≤ 0 ∨ K ≤ 0 ∨ T ≤ 0 ∨ sigma ≤ 0) :
    black_scholes_run S K T r sigma option_type
      = Except.ok (black_scholes S K T r sigma option_type) :=
  rfl

/-- C3 amended witness: the no-validation behaviour at spot = −1. -/
theorem black_scholes_run_ok_on_bad_input_witness :
    black_scholes_run (-1) 100 1 (5 / 100) (2 / 10) "put"
      = Except.ok (black_scholes (-1) 100 1 (5 / 100) (2 / 10) "put") :=
  black_scholes_run_ok_on_bad_input (-1) 100 1 (5 / 100) (2 / 10) "put"
    (Or.inl (by norm_num))

/-! ## `VolatilityAnalyzer` (`quantitative_models.py`, lines 97-245) -/

/-- `np.log(prices / prices.shift(1)).dropna()`: one log return per
consecutive pair of prices, the leading NaN dropped. -/
noncomputable def log_returns (prices : List ℝ) : List ℝ :=
  List.zipWith (fun prev cur => Real.log (cur / prev)) prices prices.tail

/-- `pandas.Series.mean()`. -/
noncomputable def seriesMean (xs : List ℝ) : ℝ :=
  xs.sum / xs.length

/-- `pandas.Series.std()`: sample standard deviation with `ddof = 1`. -/
noncomputable def seriesStd (xs : List ℝ) : ℝ :=
  Real.sqrt ((xs.map fun x => (x - seriesMean xs) ^ 2).sum / (xs.length - 1))

/-- `VolatilityAnalyzer._historical_forecast(returns, forecast_days)`: the
trailing annualized standard deviation, repeated `forecast_days` times. -/
noncomputable def vol_historical_forecast (returns : List ℝ)
    (forecast_days : ℕ) : List ℝ :=
  List.replicate forecast_days (seriesStd returns * Real.sqrt 252)

/-- `returns.ewm(alpha=1-λ).var().iloc[-1]` (pandas defaults
`adjust=True`, `bias=False`): weights `λ^(n-1-i)`, weighted mean, and the
debiased weighted variance `Σw(x-μ)² · Σw / ((Σw)² − Σw²)`. -/
noncomputable def ewm_var_last (lam : ℝ) (xs : List ℝ) : ℝ :=
  let n := xs.length
  let ws := (List.range n).map fun i => lam ^ (n - 1 - i)
  let sw := ws.sum
  let sw2 := (ws.map fun w => w ^ 2).sum
  let mu := (List.zipWith (fun w x => w * x) ws xs).sum / sw
  let biased := (List.zipWith (fun w x => w * (x - mu) ^ 2) ws xs).sum / sw
  biased * sw ^ 2 / (sw ^ 2 - sw2)

/-- `VolatilityAnalyzer._ewma_forecast(returns, forecast_days)`:
`λ = 0.94`; per-day forecast `√(ewma_var · λ^i · 252)`. -/
noncomputable def ewma_forecast (returns : List ℝ) (forecast_days : ℕ) :
    List ℝ :=
  let lambda_param : ℝ := 0.94
  let ewma_var := ewm_var_last lambda_param returns
  (List.range forecast_days).map fun i =>
    Real.sqrt (ewma_var * lambda_param ^ i * 252)

/-- `VolatilityAnalyzer._garch_forecast(returns, forecast_days)`.  The
whole body sits in a `try`; the `arch` library's GARCH(1,1) fit/forecast
is external to the repository and is modelled by the oracle `garchFit`,
which returns the forecast variance row on success and `none` when
anything in the `try` block fails (import error, non-convergence, …).  On
success the row is annualized to `√(v·252)`; on failure the method falls
back to `_historical_forecast`. -/
noncomputable def garch_forecast (garchFit : List ℝ → ℕ → Option (List ℝ))
    (returns : List ℝ) (forecast_days : ℕ) : List ℝ :=
  match garchFit returns forecast_days with
  | some variances => variances.map fun v => Real.sqrt (v * 252)
  | none => vol_historical_forecast returns forecast_days

/-- `VolatilityAnalyzer.forecast_volatility(prices, method, forecast_days)`:
compute log returns, then dispatch on the method string; any unrecognized
method takes the final `else` branch, the historical forecast. -/
noncomputable def forecast_volatility (garchFit : List ℝ → ℕ → Option (List ℝ))
    (prices : List ℝ) (method : String) (forecast_days : ℕ) : List ℝ :=
  let returns := log_returns prices
  if method = "garch" then garch_forecast garchFit returns forecast_days
  else if method = "ewma" then ewma_forecast returns forecast_days
  else if method = "historical" then vol_historical_forecast returns forecast_days
  else vol_historical_forecast returns forecast_days

/-- C6.  GARCH fallback: when the GARCH(1,1) fit fails for any reason
(the oracle returns `none`), `forecast_volatility` with method "garch"
returns exactly the historical-method forecast — same values, and in
particular the same length `forecast_days` — and, being a total function,
does not raise. -/
theorem forecast_volatility_garch_fallback
    (garchFit : List ℝ → ℕ → Option (List ℝ)) (prices : List ℝ)
    (forecast_days : ℕ)
    (hfail : garchFit (log_returns prices) forecast_days = none) :
    forecast_volatility garchFit prices "garch" forecast_days
      = forecast_volatility garchFit prices "historical" forecast_days
    ∧ (forecast_volatility garchFit prices "garch" forecast_days).length
      = forecast_days := by
  have hg : forecast_volatility garchFit prices "garch" forecast_days
      = vol_historical_forecast (log_returns prices) forecast_days := by
    unfold forecast_volatility
    rw [if_pos rfl]
    unfold garch_forecast
    rw [hfail]
  have hh : forecast_volatility garchFit prices "historical" forecast_days
      = vol_historical_forecast (log_returns prices) forecast_days := by
    unfold forecast_volatility
    rw [if_neg (by decide), if_neg (by decide), if_pos rfl]
  refine ⟨hg.trans hh.symm, ?_⟩
  rw [hg]
  unfold vol_historical_forecast
  exact List.length_replicate _ _

/-- C6 witness: a concrete always-failing GARCH oracle on the price list
[1, 2, 4] over a 5-day horizon. -/
theorem forecast_volatility_garch_fallback_witness :
    forecast_volatility (fun _ _ => none) [1, 2, 4] "garch" 5
      = forecast_volatility (fun _ _ => none) [1, 2, 4] "historical" 5
    ∧ (forecast_volatility (fun _ _ => none) [1, 2, 4] "garch" 5).length = 5 :=
  forecast_volatility_garch_fallback (fun _ _ => none) [1, 2, 4] 5 rfl

/-- C10.  Any method string other than "garch", "ewma" and "historical"
silently takes the final `else` branch: the result is exactly the
historical-method forecast, with no error signalled. -/
theorem forecast_volatility_unknown_method
    (garchFit : List ℝ → ℕ → Option (List ℝ)) (prices : List ℝ)
    (method : String) (forecast_days : ℕ)
    (h1 : method ≠ "garch") (h2 : method ≠ "ewma") (h3 : method ≠ "historical") :
    forecast_volatility garchFit prices method forecast_days
      = forecast_volatility garchFit prices "historical" forecast_days := by
  unfold forecast_volatility
  rw [if_neg h1, if_neg h2, if_neg h3, if_neg (by decide), if_neg (by decide),
    if_pos rfl]

/-- C10 witness: the misspelled method "garhc" on the price list [1, 2, 4]
over a 3-day horizon. -/
theorem forecast_volatility_unknown_method_witness :
    forecast_volatility (fun _ _ => none) [1, 2, 4] "garhc" 3
      = forecast_volatility (fun _ _ => none) [1, 2, 4] "historical" 3 :=
  forecast_volatility_unknown_method (fun _ _ => none) [1, 2, 4] "garhc" 3
    (by decide) (by decide) (by decide)

/-! ## `PortfolioOptimizer` (`quantitative_models.py`, lines 247-362)

A returns DataFrame with `m` aligned rows over `n` assets is a function
`Fin m → Fin n → ℝ`. -/

/-- `returns.mean()` for one column: the column mean. -/
noncomputable def matColMean {m n : ℕ} (R : Fin m → Fin n → ℝ) (j : Fin n) : ℝ :=
  (∑ t, R t j) / m

/-- `returns.cov()` entry: pandas sample covariance with `ddof = 1`. -/
noncomputable def sampleCov {m n : ℕ} (R : Fin m → Fin n → ℝ) (i j : Fin n) : ℝ :=
  (∑ t, (R t i - matColMean R i) * (R t j - matColMean R j)) / (m - 1)

/-- `scipy.optimize.minimize` result, as far as the source inspects it. -/
structure OptimizeResult (n : ℕ) where
  x : Fin n → ℝ
  success : Bool

/-- The oracle modelling `scipy.optimize.minimize(objective, initial,
method='SLSQP', bounds, constraints)`.  The solver is external to the
repository; every call site passes the same `[0,1]` bounds and the same
`Σw − 1 = 0` equality constraint, so the oracle's type carries only the
varying data (objective and initial point). -/
def Minimizer (n : ℕ) : Type :=
  ((Fin n → ℝ) → ℝ) → (Fin n → ℝ) → OptimizeResult n

/-- `np.ones(n_assets) / n_assets`: the equal-weight start/fallback. -/
noncomputable def equal_weights (n : ℕ) : Fin n → ℝ :=
  fun _ => 1 / n

/-- `PortfolioOptimizer._optimize_sharpe_ratio`: minimize the negative
Sharpe ratio; on solver non-success return equal weights. -/
noncomputable def optimize_sharpe_ratio {n : ℕ} (minimize : Minimizer n)
    (expected_returns : Fin n → ℝ) (cov_matrix : Fin n → Fin n → ℝ) :
    Fin n → ℝ :=
  let objective := fun w : Fin n → ℝ =>
    let portfolio_return := ∑ i, w i * expected_returns i
    let portfolio_vol := Real.sqrt (∑ i, w i * ∑ j, cov_matrix i j * w j)
    let sharpe := (portfolio_return - 5 / 100) / portfolio_vol
    Neg.neg sharpe
  let result := minimize objective (equal_weights n)
  if result.success then result.x else equal_weights n

/-- `PortfolioOptimizer._optimize_min_variance`: minimize the portfolio
standard deviation; on solver non-success return equal weights. -/
noncomputable def optimize_min_variance {n : ℕ} (minimize : Minimizer n)
    (cov_matrix : Fin n → Fin n → ℝ) : Fin n → ℝ :=
  let objective := fun w : Fin n → ℝ =>
    Real.sqrt (∑ i, w i * ∑ j, cov_matrix i j * w j)
  let result := minimize objective (equal_weights n)
  if result.success then result.x else equal_weights n

/-- `PortfolioOptimizer._optimize_max_return`: minimize the negated
expected return; on solver non-success return equal weights. -/
noncomputable def optimize_max_return {n : ℕ} (minimize : Minimizer n)
    (expected_returns : Fin n → ℝ) : Fin n → ℝ :=
  let objective := fun w : Fin n → ℝ => Neg.neg (∑ i, w i * expected_returns i)
  let result := minimize objective (equal_weights n)
  if result.success then result.x else equal_weights n

/-- `PortfolioOptimizer.optimize_portfolio(returns, method)`: annualize
covariance and means, then dispatch on the method string (an unknown
method falls back to the Sharpe objective). -/
noncomputable def optimize_portfolio {m n : ℕ} (minimize : Minimizer n)
    (R : Fin m → Fin n → ℝ) (method : String) : Fin n → ℝ :=
  let cov_matrix := fun i j => sampleCov R i j * 252
  let expected_returns := fun j => matColMean R j * 252
  if method = "sharpe" then
    optimize_sharpe_ratio minimize expected_returns cov_matrix
  else if method = "min_variance" then
    optimize_min_variance minimize cov_matrix
  else if method = "max_return" then
    optimize_max_return minimize expected_returns
  else
    optimize_sharpe_ratio minimize expected_returns cov_matrix

/-- C5.  Optimizer fallback: for each of the three methods, if the
constrained solver reports non-success, `optimize_portfolio` returns the
equal-weight allocation — every one of the `n` assets gets weight `1/n` —
and those weights sum to 1. -/
theorem optimize_portfolio_fallback {m n : ℕ} (minimize : Minimizer n)
    (R : Fin m → Fin n → ℝ) (method : String) (hn : 0 < n)
    (hmem : method = "sharpe" ∨ method = "min_variance"
      ∨ method = "max_return")
    (hfail : ∀ objective x0, (minimize objective x0).success = false) :
    optimize_portfolio minimize R method = (fun _ => 1 / (n : ℝ))
    ∧ (∑ i, optimize_portfolio minimize R method i) = 1 := by
  have heq : optimize_portfolio minimize R method = equal_weights n := by
    rcases hmem with h | h | h <;> subst h <;>
      simp [optimize_portfolio, optimize_sharpe_ratio, optimize_min_variance,
        optimize_max_return, hfail]
  have hnR : (n : ℝ) ≠ 0 := Nat.cast_ne_zero.mpr hn.ne'
  constructor
  · exact heq
  · rw [heq]
    unfold equal_weights
    rw [Finset.sum_const, Finset.card_univ, Fintype.card_fin, nsmul_eq_mul]
    field_simp

/-- C5 witness: two assets, a concrete never-converging solver, method
"min_variance". -/
theorem optimize_portfolio_fallback_witness :
    (optimize_portfolio (fun _ x0 => ⟨x0, false⟩)
        (fun _ _ => (1 : ℝ) : Fin 3 → Fin 2 → ℝ) "min_variance"
      = fun _ => 1 / 2)
    ∧ (∑ i, optimize_portfolio (fun _ x0 => ⟨x0, false⟩)
        (fun _ _ => (1 : ℝ) : Fin 3 → Fin 2 → ℝ) "min_variance" i) = 1 := by
  have h := optimize_portfolio_fallback (n := 2)
    (fun _ x0 => ⟨x0, false⟩) (fun _ _ => (1 : ℝ) : Fin 3 → Fin 2 → ℝ)
    "min_variance" (by norm_num) (Or.inr (Or.inl rfl)) (fun _ _ => rfl)
  simpa using h

/-! ## `PortfolioRiskModel.calculate_portfolio_covariance`
(`risk_models.py`, lines 24-50) -/

/-- The dictionary returned by `calculate_portfolio_covariance`. -/
structure CovarianceReport (n : ℕ) where
  covariance_matrix : Fin n → Fin n → ℝ
  correlation_matrix : Fin n → Fin n → ℝ
  portfolio_variance : ℝ
  portfolio_volatility : ℝ
  marginal_contributions : Fin n → ℝ
  component_var : Fin n → ℝ
  risk_contributions : Fin n → ℝ

/-- `PortfolioRiskModel.calculate_portfolio_covariance(returns_df,
weights)`: annualized sample covariance `Σ = returns.cov()·252`,
`portfolio_variance = wᵀΣw`, volatility its square root, marginal
contributions `Σw / volatility`, `component_var = w ⊙ marginal`,
`risk_contributions = component_var / volatility`; the correlation matrix
is pandas `returns.corr()` (Pearson). -/
noncomputable def calculate_portfolio_covariance {m n : ℕ}
    (R : Fin m → Fin n → ℝ) (weights : Fin n → ℝ) : CovarianceReport n :=
  let cov_matrix := fun i j => sampleCov R i j * 252
  let portfolio_variance := ∑ i, weights i * ∑ j, cov_matrix i j * weights j
  let portfolio_volatility := Real.sqrt portfolio_variance
  let marginal_contributions := fun i =>
    (∑ j, cov_matrix i j * weights j) / portfolio_volatility
  let component_var := fun i => weights i * marginal_contributions i
  { covariance_matrix := cov_matrix
    correlation_matrix := fun i j =>
      sampleCov R i j
        / (Real.sqrt (sampleCov R i i) * Real.sqrt (sampleCov R j j))
    portfolio_variance := portfolio_variance
    portfolio_volatility := portfolio_volatility
    marginal_contributions := marginal_contributions
    component_var := component_var
    risk_contributions := fun i => component_var i / portfolio_volatility }

/-- C4.  Risk-contribution conservation: for every returns matrix and
weight vector summing to 1 with nonzero resulting portfolio volatility,
the risk contributions sum to 1 within 1e-6 (in fact exactly). -/
theorem risk_contributions_sum_to_one {m n : ℕ} (R : Fin m → Fin n → ℝ)
    (weights : Fin n → ℝ) (hw : ∑ i, weights i = 1)
    (hvol : (calculate_portfolio_covariance R weights).portfolio_volatility ≠ 0) :
    |(∑ i, (calculate_portfolio_covariance R weights).risk_contributions i)
      - 1| ≤ 1e-6 := by
  have hvol' : Real.sqrt (∑ i, weights i
      * ∑ j, (sampleCov R i j * 252) * weights j) ≠ 0 := hvol
  have hvpos : 0 < ∑ i, weights i * ∑ j, (sampleCov R i j * 252) * weights j := by
    by_contra hle
    exact hvol' (Real.sqrt_eq_zero'.mpr (not_lt.mp hle))
  have hss : Real.sqrt (∑ i, weights i
        * ∑ j, (sampleCov R i j * 252) * weights j)
      * Real.sqrt (∑ i, weights i * ∑ j, (sampleCov R i j * 252) * weights j)
      = ∑ i, weights i * ∑ j, (sampleCov R i j * 252) * weights j :=
    Real.mul_self_sqrt hvpos.le
  have hsum : (∑ i, (calculate_portfolio_covariance R weights).risk_contributions i)
      = 1 := by
    show (∑ i, weights i * ((∑ j, (sampleCov R i j * 252) * weights j)
        / Real.sqrt (∑ i, weights i * ∑ j, (sampleCov R i j * 252) * weights j))
        / Real.sqrt (∑ i, weights i * ∑ j, (sampleCov R i j * 252) * weights j))
      = 1
    have hstep : ∀ i : Fin n, weights i * ((∑ j, (sampleCov R i j * 252) * weights j)
        / Real.sqrt (∑ i, weights i * ∑ j, (sampleCov R i j * 252) * weights j))
        / Real.sqrt (∑ i, weights i * ∑ j, (sampleCov R i j * 252) * weights j)
        = weights i * (∑ j, (sampleCov R i j * 252) * weights j)
          / (Real.sqrt (∑ i, weights i * ∑ j, (sampleCov R i j * 252) * weights j)
            * Real.sqrt (∑ i, weights i
              * ∑ j, (sampleCov R i j * 252) * weights j)) := by
      intro i
      field_simp
    rw [Finset.sum_congr rfl fun i _ => hstep i, ← Finset.sum_div, hss,
      div_self hvpos.ne']
  rw [hsum]
  norm_num

/-- C4 witness: one asset with returns [0, 2] and weight 1; the
annualized variance is 504, so the volatility is nonzero. -/
theorem risk_contributions_sum_to_one_witness :
    |(∑ i, (calculate_portfolio_covariance
        (fun t _ => if t = (0 : Fin 2) then 0 else 2) (fun _ : Fin 1 => 1)).risk_contributions i)
      - 1| ≤ 1e-6 := by
  refine risk_contributions_sum_to_one _ _ (by simp) ?_
  have hv : (∑ i : Fin 1, (fun _ : Fin 1 => (1 : ℝ)) i
      * ∑ j : Fin 1, (sampleCov (fun t _ => if t = (0 : Fin 2) then 0 else 2) i j * 252)
        * (fun _ : Fin 1 => (1 : ℝ)) j) = 504 := by
    simp [sampleCov, matColMean, Fin.sum_univ_succ]
    norm_num
  show Real.sqrt _ ≠ 0
  rw [hv]
  positivity

/-! ## `PortfolioRiskModel.stress_test_portfolio`
(`risk_models.py`, lines 265-300) -/

/-- One entry of `portfolio_data['holdings']`, as far as the stress test
reads it. -/
structure Holding where
  ticker : String
  current_value : ℝ

/-- The `portfolio_data` dictionary fields read by the stress test
(`portfolio_data.get('volatility', 0.15)` makes volatility optional). -/
structure PortfolioData where
  holdings : List Holding
  total_value : ℝ
  volatility : Option ℝ

/-- A stress scenario dictionary
(`scenario.get('volatility_multiplier', 1.5)` makes it optional). -/
structure StressScenario where
  name : String
  market_shock : ℝ
  volatility_multiplier : Option ℝ

/-- One value of the `results` dictionary built by the stress test. -/
structure ScenarioResult where
  scenario_value : ℝ
  value_change : ℝ
  value_change_percent : ℝ
  stress_volatility : ℝ
  stress_var_95 : ℝ
  stress_probability_of_loss : ℝ

/-- The per-scenario body of the loop in `stress_test_portfolio`:
`scenario_value = Σ holding.current_value · (1 + market_shock)` (the
uniform, non-beta-weighted shock), `stress_volatility = baseVol ·
volatility_multiplier`, `stress_var_95 = scenario_value · (1 − 1.645 ·
stress_volatility)`, and `stress_probability_of_loss =
norm.cdf(0; value_change, stress_volatility)`. -/
noncomputable def stress_scenario_result (portfolio_data : PortfolioData)
    (scenario : StressScenario) : ScenarioResult :=
  let market_shock := scenario.market_shock
  let volatility_multiplier := scenario.volatility_multiplier.getD 1.5
  let scenario_value :=
    (portfolio_data.holdings.map fun h =>
      h.current_value * (1 + market_shock)).sum
  let stress_volatility :=
    portfolio_data.volatility.getD 0.15 * volatility_multiplier
  let stress_var := scenario_value * (1 - 1.645 * stress_volatility)
  { scenario_value := scenario_value
    value_change := scenario_value - portfolio_data.total_value
    value_change_percent :=
      (scenario_value - portfolio_data.total_value) / portfolio_data.total_value
    stress_volatility := stress_volatility
    stress_var_95 := stress_var
    stress_probability_of_loss :=
      normCdf ((0 - (scenario_value - portfolio_data.total_value))
        / stress_volatility) }

/-- `PortfolioRiskModel.stress_test_portfolio(portfolio_data, scenarios)`:
the results dictionary, keyed by scenario name (modelled as an
association list in scenario order). -/
noncomputable def stress_test_portfolio (portfolio_data : PortfolioData)
    (scenarios : List StressScenario) : List (String × ScenarioResult) :=
  scenarios.map fun scenario =>
    (scenario.name, stress_scenario_result portfolio_data scenario)

/-- C7.  Scenario linearity: whenever the holdings' current values sum to
the portfolio's total value, every scenario's entry in the stress-test
result has `value_change = total_value · market_shock` — exactly, with no
per-asset beta. -/
theorem stress_test_value_change_exact (portfolio_data : PortfolioData)
    (scenarios : List StressScenario) (scenario : StressScenario)
    (hsum : (portfolio_data.holdings.map Holding.current_value).sum
      = portfolio_data.total_value)
    (hmem : scenario ∈ scenarios) :
    (scenario.name, stress_scenario_result portfolio_data scenario)
      ∈ stress_test_portfolio portfolio_data scenarios
    ∧ (stress_scenario_result portfolio_data scenario).value_change
      = portfolio_data.total_value * scenario.market_shock := by
  constructor
  · exact List.mem_map_of_mem _ hmem
  · show (portfolio_data.holdings.map fun h =>
        h.current_value * (1 + scenario.market_shock)).sum
        - portfolio_data.total_value
      = portfolio_data.total_value * scenario.market_shock
    have hfac : (portfolio_data.holdings.map fun h =>
        h.current_value * (1 + scenario.market_shock)).sum
        = (portfolio_data.holdings.map Holding.current_value).sum
          * (1 + scenario.market_shock) := by
      induction portfolio_data.holdings with
      | nil => simp
      | cons h t ih => simp [ih]; ring
    rw [hfac, hsum]
    ring

/-- C7 witness: two holdings worth 100 and 300 in a portfolio of total
value 400, under a −20% market shock. -/
theorem stress_test_value_change_exact_witness :
    ((StressScenario.mk "Market Crash (-20%)" (-(20 / 100)) (some 2)).name,
        stress_scenario_result
          (PortfolioData.mk [Holding.mk "A" 100, Holding.mk "B" 300] 400 none)
          (StressScenario.mk "Market Crash (-20%)" (-(20 / 100)) (some 2)))
      ∈ stress_test_portfolio
        (PortfolioData.mk [Holding.mk "A" 100, Holding.mk "B" 300] 400 none)
        [StressScenario.mk "Market Crash (-20%)" (-(20 / 100)) (some 2)]
    ∧ (stress_scenario_result
        (PortfolioData.mk [Holding.mk "A" 100, Holding.mk "B" 300] 400 none)
        (StressScenario.mk "Market Crash (-20%)" (-(20 / 100)) (some 2))).value_change
      = 400 * (-(20 / 100)) :=
  stress_test_value_change_exact
    (PortfolioData.mk [Holding.mk "A" 100, Holding.mk "B" 300] 400 none) _ _
    (by norm_num [Holding.current_value]) (List.mem_singleton_self _)

/-! ## `PriceForecaster` (`quantitative_models.py`, lines 364-485) -/

/-- `scipy.stats.norm.ppf`, the inverse of the standard normal CDF. -/
noncomputable def normPpf : ℝ → ℝ :=
  Function.invFun normCdf

/-- The dictionary returned by `forecast_price_range` /
`PriceForecaster._historical_forecast`; only the historical fallback sets
the `'method'` key, so the field is optional. -/
structure ForecastResult where
  current_price : ℝ
  expected_price : ℝ
  lower_bound : ℝ
  upper_bound : ℝ
  confidence_level : ℝ
  implied_volatility : ℝ
  forecast_days : ℕ
  method : Option String

/-- One option quote row, as far as `forecast_price_range` reads it. -/
structure OptQuote where
  strike : ℝ
  bid : ℝ
  ask : ℝ

/-- The option chain for the nearest expiration, with its time to expiry
in days (`_days_to_expiry`, an integer count that can be negative). -/
structure ExpiryChain where
  days_to_expiry : ℤ
  calls : List OptQuote
  puts : List OptQuote

/-- The market data `forecast_price_range` pulls for a ticker: the spot
(`regularMarketPrice`, with the provider's 0 default when missing), the
available option expirations with their chains, and one year of daily
closes. -/
structure StockData where
  spot : ℝ
  expirations : List ExpiryChain
  closes : List ℝ

/-- `PriceForecaster._historical_forecast(stock, forecast_days,
confidence_level)`: last close as current price, log returns of the
year's closes, `hist_vol = returns.std()·√252`,
`drift = returns.mean()·252`, `z = norm.ppf((1+confidence)/2)`, bounds
`current·e^{(drift ∓ z·σ)T}` with `T = forecast_days/365`, and the result
labeled `method = 'historical'`.  An empty history raises inside the
`try` (`iloc[-1]`) and the `except` returns `None`. -/
noncomputable def pf_historical_forecast (closes : List ℝ) (forecast_days : ℕ)
    (confidence_level : ℝ) : Option ForecastResult :=
  match closes.getLast? with
  | none => none
  | some current_price =>
    let returns := log_returns closes
    let hist_vol := seriesStd returns * Real.sqrt 252
    let time_to_forecast := (forecast_days : ℝ) / 365
    let drift := seriesMean returns * 252
    let z_score := normPpf ((1 + confidence_level) / 2)
    some { current_price := current_price
           expected_price := current_price * Real.exp (drift * time_to_forecast)
           lower_bound := current_price
             * Real.exp ((drift - z_score * hist_vol) * time_to_forecast)
           upper_bound := current_price
             * Real.exp ((drift + z_score * hist_vol) * time_to_forecast)
           confidence_level := confidence_level
           implied_volatility := hist_vol
           forecast_days := forecast_days
           method := some "historical" }

/-- `PriceForecaster.forecast_price_range(ticker, forecast_days,
confidence_level)` on the market data for the ticker: `None` when the
spot is 0; the labeled historical fallback when no option expirations
exist; otherwise the implied-volatility path on the nearest expiration —
usable quotes (bid > 0 and ask > 0) are inverted through
`implied_volatility` at mid price and kept when inside the (0.1, 2.0)
band, their mean is used as σ (falling back to unlabeled historical σ
when no quote survives), and the bounds use `drift = 0.05 − 0.5 σ²`,
without a `'method'` label. -/
noncomputable def forecast_price_range (stock : StockData)
    (forecast_days : ℕ) (confidence_level : ℝ) : Option ForecastResult :=
  if stock.spot = 0 then none
  else
    match stock.expirations with
    | [] => pf_historical_forecast stock.closes forecast_days confidence_level
    | chain :: _ =>
      let T_exp := (chain.days_to_expiry : ℝ) / 365
      let call_ivs := chain.calls.filterMap fun q =>
        if 0 < q.bid ∧ 0 < q.ask then
          let mid_price := (q.bid + q.ask) / 2
          let iv := implied_volatility stock.spot q.strike T_exp (5 / 100)
            mid_price "call"
          if 0.1 < iv ∧ iv < 2.0 then some iv else none
        else none
      let put_ivs := chain.puts.filterMap fun q =>
        if 0 < q.bid ∧ 0 < q.ask then
          let mid_price := (q.bid + q.ask) / 2
          let iv := implied_volatility stock.spot q.strike T_exp (5 / 100)
            mid_price "put"
          if 0.1 < iv ∧ iv < 2.0 then some iv else none
        else none
      let iv_values := call_ivs ++ put_ivs
      let avg_iv := if iv_values ≠ [] then seriesMean iv_values
        else seriesStd (log_returns stock.closes) * Real.sqrt 252
      let time_to_forecast := (forecast_days : ℝ) / 365
      let drift := 5 / 100 - 0.5 * avg_iv ^ 2
      let z_score := normPpf ((1 + confidence_level) / 2)
      some { current_price := stock.spot
             expected_price := stock.spot * Real.exp (drift * time_to_forecast)
             lower_bound := stock.spot
               * Real.exp ((drift - z_score * avg_iv) * time_to_forecast)
             upper_bound := stock.spot
               * Real.exp ((drift + z_score * avg_iv) * time_to_forecast)
             confidence_level := confidence_level
             implied_volatility := avg_iv
             forecast_days := forecast_days
             method := none }

/-- Close prices used for the C8 analysis: two log returns, both 1. -/
noncomputable def c8_closes : List ℝ :=
  [1, Real.exp 1, Real.exp 2]

/-- Market data with no option expirations, forcing the labeled
historical fallback path. -/
noncomputable def c8_stock : StockData :=
  StockData.mk (Real.exp 2) [] c8_closes

/-- C8 counterexample.  On the labeled historical fallback path, the
drift is the annualized mean log return `returns.mean()·252`, not
`r − 0.5σ²`: for the history [1, e, e²] (σ = 0, mean return 1) over a
365-day horizon, the code's expected price is `e²·e²⁵²`, while the
claimed formula gives `e²·e^{0.05 − 0.5·0²}`. -/
theorem forecast_price_range_drift_counterexample :
    (forecast_price_range c8_stock 365 (95 / 100)).map
        (fun fr => (fr.method, fr.implied_volatility, fr.expected_price))
      = some (some "historical", 0, Real.exp 2 * Real.exp 252)
    ∧ Real.exp 2 * Real.exp 252
      ≠ Real.exp 2
        * Real.exp ((5 / 100 - 0.5 * 0 ^ 2) * (((365 : ℕ) : ℝ) / 365)) := by
  have hlr : log_returns c8_closes = [1, 1] := by
    unfold c8_closes log_returns
    simp only [List.tail_cons, List.zipWith]
    rw [div_one, Real.log_exp, show Real.exp 2 / Real.exp 1 = Real.exp 1 by
      rw [← Real.exp_sub]; norm_num, Real.log_exp]
  constructor
  · unfold forecast_price_range
    rw [if_neg (show ¬ c8_stock.spot = 0 from Real.exp_ne_zero 2)]
    show (pf_historical_forecast c8_closes 365 (95 / 100)).map _ = _
    unfold pf_historical_forecast
    rw [show c8_closes.getLast? = some (Real.exp 2) from rfl]
    simp only [Option.map_some', hlr]
    have hstd : seriesStd [(1 : ℝ), 1] = 0 := by
      unfold seriesStd seriesMean
      norm_num
    have hmean : seriesMean [(1 : ℝ), 1] = 1 := by
      unfold seriesMean
      norm_num
    rw [hstd, hmean]
    norm_num
  · intro heq
    have h2 := mul_left_cancel₀ (Real.exp_ne_zero 2) heq
    rw [Real.exp_eq_exp] at h2
    norm_num at h2

/-- The record the historical fallback produces on `c8_closes` over a
365-day horizon at 95% confidence. -/
noncomputable def c8_result : ForecastResult :=
  { current_price := Real.exp 2
    expected_price := Real.exp 2
      * Real.exp ((seriesMean (log_returns c8_closes) * 252) * (((365 : ℕ) : ℝ) / 365))
    lower_bound := Real.exp 2
      * Real.exp ((seriesMean (log_returns c8_closes) * 252
          - normPpf ((1 + 95 / 100) / 2)
            * (seriesStd (log_returns c8_closes) * Real.sqrt 252))
        * (((365 : ℕ) : ℝ) / 365))
    upper_bound := Real.exp 2
      * Real.exp ((seriesMean (log_returns c8_closes) * 252
          + normPpf ((1 + 95 / 100) / 2)
            * (seriesStd (log_returns c8_closes) * Real.sqrt 252))
        * (((365 : ℕ) : ℝ) / 365))
    confidence_level := 95 / 100
    implied_volatility := seriesStd (log_returns c8_closes) * Real.sqrt 252
    forecast_days := 365
    method := some "historical" }

/-- C8 amended.  What the labeled historical fallback actually computes:
when the spot is nonzero and no option expirations exist,
`forecast_price_range` returns the `_historical_forecast` record, whose
method is "historical", whose σ is the annualized historical volatility
of the supplied price history, and whose outputs are
`expectedPrice = spot·e^{drift·T}`,
`lowerBound = spot·e^{(drift − zσ)T}`,
`upperBound = spot·e^{(drift + zσ)T}` with `T = horizonDays/365` and
`z = Φ⁻¹((1+confidence)/2)` — but with
`drift = returns.mean()·252`, the annualized mean log return, not
`r − 0.5σ²`. -/
theorem forecast_price_range_historical_fallback (stock : StockData)
    (forecast_days : ℕ) (confidence_level : ℝ) (fr : ForecastResult)
    (hspot : ¬ stock.spot = 0) (hopt : stock.expirations = [])
    (hres : pf_historical_forecast stock.closes forecast_days confidence_level
      = some fr) :
    forecast_price_range stock forecast_days confidence_level = some fr
    ∧ fr.method = some "historical"
    ∧ fr.implied_volatility = seriesStd (log_returns stock.closes) * Real.sqrt 252
    ∧ fr.expected_price = fr.current_price
        * Real.exp ((seriesMean (log_returns stock.closes) * 252)
          * ((forecast_days : ℝ) / 365))
    ∧ fr.lower_bound = fr.current_price
        * Real.exp ((seriesMean (log_returns stock.closes) * 252
            - normPpf ((1 + confidence_level) / 2) * fr.implied_volatility)
          * ((forecast_days : ℝ) / 365))
    ∧ fr.upper_bound = fr.current_price
        * Real.exp ((seriesMean (log_returns stock.closes) * 252
            + normPpf ((1 + confidence_level) / 2) * fr.implied_volatility)
          * ((forecast_days : ℝ) / 365)) := by
  have hmain : forecast_price_range stock forecast_days confidence_level
      = pf_historical_forecast stock.closes forecast_days confidence_level := by
    unfold forecast_price_range
    rw [if_neg hspot, hopt]
  unfold pf_historical_forecast at hres
  cases hlast : stock.closes.getLast? with
  | none =>
    rw [hlast] at hres
    exact absurd hres (by simp)
  | some current_price =>
    rw [hlast] at hres
    simp only [Option.some.injEq] at hres
    subst hres
    refine ⟨?_, rfl, rfl, rfl, rfl, rfl⟩
    rw [hmain]
    unfold pf_historical_forecast
    rw [hlast]

/-- C8 amended witness: the fallback on `c8_stock` (nonzero spot, no
option expirations, history [1, e, e²]) returns `c8_result`, which is
labeled historical. -/
theorem forecast_price_range_historical_fallback_witness :
    forecast_price_range c8_stock 365 (95 / 100) = some c8_result
    ∧ c8_result.method = some "historical" :=
  have h := forecast_price_range_historical_fallback c8_stock 365 (95 / 100)
    c8_result (Real.exp_ne_zero 2) rfl rfl
  ⟨h.1, h.2.1⟩

/-! ## `PortfolioRiskModel.monte_carlo_portfolio_simulation`
(`risk_models.py`, lines 52-125) -/

/-- `np.mean` / `np.std` with numpy's default `ddof = 0`. -/
noncomputable def npStd (xs : List ℝ) : ℝ :=
  Real.sqrt ((xs.map fun x => (x - seriesMean xs) ^ 2).sum / xs.length)

/-- `np.sort` on a list of reals. -/
noncomputable def sortReals (l : List ℝ) : List ℝ :=
  l.mergeSort (fun a b => decide (a ≤ b))

/-- `np.percentile(a, q)` with numpy's default linear interpolation:
`h = (len−1)·q/100`, the result interpolates between the sorted values at
`⌊h⌋` and `⌊h⌋+1` (clipped to the last element). -/
noncomputable def npPercentile (l : List ℝ) (q : ℝ) : ℝ :=
  let s := sortReals l
  let h := ((l.length : ℝ) - 1) * q / 100
  let lo := ⌊h⌋₊
  let g := s.getD lo 0
  g + (h - lo) * (s.getD (lo + 1) g - g)

/-- The oracle modelling `np.random.multivariate_normal(mean, cov,
size=(time_horizon, n_simulations))` as a deterministic function of the
numpy global RNG state it runs under together with its arguments: given
the state, the mean vector, the covariance matrix, the horizon and the
simulation count, it yields the draw indexed by (period, simulation,
asset).  The sampler itself is numpy internals, external to the
repository. -/
def MCSampler (n : ℕ) : Type :=
  ℕ → (Fin n → ℝ) → (Fin n → Fin n → ℝ) → ℕ → ℕ → (ℕ → ℕ → Fin n → ℝ)

/-- The dictionary returned by `monte_carlo_portfolio_simulation`
(`simulation_results` flattened together with `risk_metrics` and
`distribution_params`). -/
structure MCResult where
  final_values : List ℝ
  portfolio_values : ℕ → ℕ → ℝ
  portfolio_returns : ℕ → ℕ → ℝ
  mean_final_value : ℝ
  std_final_value : ℝ
  var_90 : ℝ
  var_95 : ℝ
  var_99 : ℝ
  cvar_90 : ℝ
  cvar_95 : ℝ
  cvar_99 : ℝ
  probability_of_loss : ℝ
  expected_shortfall : ℝ
  max_drawdown : ℝ
  skewness : ℝ
  kurtosis : ℝ

/-- `PortfolioRiskModel.monte_carlo_portfolio_simulation(returns_df,
weights, n_simulations, time_horizon)`.  The method begins with
`np.random.seed(42)` — unconditionally, with no test-only parameter — so
the ambient RNG state `rng_state` is overwritten and the correlated draws
come from the sampler at state 42.  Per period and simulation the
portfolio return is the weighted draw; values compound as
`100000·exp(cumsum)`; the final row yields mean, std, percentile-based
VaR/CVaR at 90/95/99%, probability of loss and expected shortfall
(relative to the initial value 100000), the maximum drawdown across the
value paths, and the moments of the final-value distribution
(`scipy.stats.skew` / `scipy.stats.kurtosis`, biased, Fisher).  In
`np.min` of the drawdown matrix the fold seed 0 is an upper bound of
every (non-positive) drawdown, so the fold equals the numpy minimum. -/
noncomputable def monte_carlo_portfolio_simulation {m n : ℕ}
    (sampler : MCSampler n) (rng_state : ℕ) (R : Fin m → Fin n → ℝ)
    (weights : Fin n → ℝ) (n_simulations : ℕ := 10000)
    (time_horizon : ℕ := 252) : MCResult :=
  let mean_returns := fun j => matColMean R j * 252
  let cov_matrix := fun i j => sampleCov R i j * 252
  let draws := sampler 42 mean_returns cov_matrix time_horizon n_simulations
  let portfolio_returns := fun (t s : ℕ) => ∑ j, draws t s j * weights j
  let initial_value : ℝ := 100000
  let portfolio_values := fun (t s : ℕ) =>
    initial_value * Real.exp (∑ u ∈ Finset.range (t + 1), portfolio_returns u s)
  let final_values := (List.range n_simulations).map fun s =>
    portfolio_values (time_horizon - 1) s
  let mu := seriesMean final_values
  let sigma := npStd final_values
  let var_at := fun (confidence : ℝ) =>
    npPercentile final_values ((1 - confidence) * 100)
  let cvar_at := fun (confidence : ℝ) =>
    seriesMean (final_values.filter fun x => decide (x ≤ var_at confidence))
  let losers := final_values.filter fun x => decide (x < initial_value)
  let peak := fun (t s : ℕ) =>
    ((List.range (t + 1)).map fun u => portfolio_values u s).foldr max
      (portfolio_values t s)
  let drawdown := fun (t s : ℕ) =>
    (portfolio_values t s - peak t s) / peak t s
  { final_values := final_values
    portfolio_values := portfolio_values
    portfolio_returns := portfolio_returns
    mean_final_value := mu
    std_final_value := sigma
    var_90 := var_at (90 / 100)
    var_95 := var_at (95 / 100)
    var_99 := var_at (99 / 100)
    cvar_90 := cvar_at (90 / 100)
    cvar_95 := cvar_at (95 / 100)
    cvar_99 := cvar_at (99 / 100)
    probability_of_loss := (losers.length : ℝ) / final_values.length
    expected_shortfall := seriesMean losers
    max_drawdown :=
      (((List.range time_horizon).map fun t =>
        (List.range n_simulations).map fun s => drawdown t s).flatten).foldr min 0
    skewness := ((final_values.map fun x => (x - mu) ^ 3).sum
      / final_values.length) / sigma ^ 3
    kurtosis := ((final_values.map fun x => (x - mu) ^ 4).sum
      / final_values.length) / sigma ^ 4 - 3 }

/-- A sampler that genuinely depends on the RNG state it is given, used
to exhibit that the simulation pins that state to 42. -/
noncomputable def c9_sampler : MCSampler 1 :=
  fun seed mean _ _ _ => fun t s _ => (seed : ℝ) + mean 0 + t + s

/-- A concrete one-asset returns matrix over two periods. -/
noncomputable def c9_returns : Fin 2 → Fin 1 → ℝ :=
  fun t _ => if t = 0 then 1 / 100 else 2 / 100

/-- C9 counterexample.  The claim that production calls do not fix the
seed is false: `monte_carlo_portfolio_simulation` opens with
`np.random.seed(42)` unconditionally (there is no test-only seed
parameter), so two invocations on identical inputs under different
ambient RNG states — here states 0 and 1, with a sampler that genuinely
depends on the state — produce the identical result. -/
theorem monte_carlo_seed_counterexample :
    monte_carlo_portfolio_simulation c9_sampler 0 c9_returns (fun _ => 1) 3 2
      = monte_carlo_portfolio_simulation c9_sampler 1 c9_returns (fun _ => 1) 3 2
    ∧ (0 : ℕ) ≠ 1 :=
  ⟨rfl, by decide⟩

/-- C9 amended.  Every invocation of `monte_carlo_portfolio_simulation`
reseeds the global RNG with the hard-coded 42, so its result is a
function of the sampler and the numeric inputs only: any two ambient RNG
states yield the identical simulation result. -/
theorem monte_carlo_seed_deterministic {m n : ℕ} (sampler : MCSampler n)
    (R : Fin m → Fin n → ℝ) (weights : Fin n → ℝ)
    (n_simulations time_horizon : ℕ) (state1 state2 : ℕ) :
    monte_carlo_portfolio_simulation sampler state1 R weights n_simulations
        time_horizon
      = monte_carlo_portfolio_simulation sampler state2 R weights n_simulations
        time_horizon :=
  rfl

end AuraVest
